import Mathlib

/-!
Shallow embedding of the simulation core of the Roguely roguelike
(src/engine.h, src/engine.cpp, src/Game.cpp, src/main.cpp):
cellular-automaton map generation, field of view, A* pathfinding,
random-point search, viewport clamping, the entity registry and the
spatial query layer.  Machine `int`s are modelled as `Int` (no arithmetic
in the translated code paths comes near the 32-bit boundary), matrices as
total functions from row/column indices, and the shared pseudo-random
source as an explicit stream of draws.
-/

namespace Roguely

/-- `roguely::common::Point` (engine.h): a grid coordinate, equality by value. -/
structure Point where
  x : Int
  y : Int
deriving DecidableEq, Repr

/-- A wall/floor grid as a total function `row → col → value`
(`GenericMatrix<int>` in engine.h; cells the code never touches keep
their old value in our functional update model). -/
def Grid := Int → Int → Int

/-- Pointwise update of a grid, modelling `map(r, c) = v`. -/
def Grid.set (m : Grid) (r c v : Int) : Grid :=
  fun r' c' => if r' = r ∧ c' = c then v else m r' c'

/-! ## Cellular automaton (Engine::perform_cellular_automaton, engine.cpp) -/

/-- One iteration of the inner double loop of the
`get_neighbor_wall_count` lambda in `Engine::perform_cellular_automaton`
(engine.cpp): the contribution of neighborhood position `(row, col)` to
`wall_count` — `1` when the position lies outside the interior
`[1, map_height-2] x [1, map_width-2]` (a synthetic border wall), else
`1` exactly when the grid holds a wall (`0`) there. -/
def neighbor_contrib (map : Grid) (map_width map_height row col : Int) : Int :=
  if 1 ≤ row ∧ 1 ≤ col ∧ row < map_height - 1 ∧ col < map_width - 1 then
    if map row col = 0 then 1 else 0
  else 1

/-- The `get_neighbor_wall_count` lambda inside
`Engine::perform_cellular_automaton` (engine.cpp): accumulates
`neighbor_contrib` over the 3x3 neighborhood of `(y, x)`
(rows `y-1..y+1` outer, columns `x-1..x+1` inner). -/
def get_neighbor_wall_count (map : Grid) (map_width map_height x y : Int) : Int :=
  neighbor_contrib map map_width map_height (y - 1) (x - 1) +
  neighbor_contrib map map_width map_height (y - 1) x +
  neighbor_contrib map map_width map_height (y - 1) (x + 1) +
  neighbor_contrib map map_width map_height y (x - 1) +
  neighbor_contrib map map_width map_height y x +
  neighbor_contrib map map_width map_height y (x + 1) +
  neighbor_contrib map map_width map_height (y + 1) (x - 1) +
  neighbor_contrib map map_width map_height (y + 1) x +
  neighbor_contrib map map_width map_height (y + 1) (x + 1)

/-- One write of the smoothing loop body: recompute cell `(r, c)` from the
current (partially rewritten) grid and store it, exactly as the in-place
update `map(r, c) = ...` in `Engine::perform_cellular_automaton`. -/
def ca_step (map_width map_height : Int) (m : Grid) (rc : Int × Int) : Grid :=
  let cnt := get_neighbor_wall_count m map_width map_height rc.2 rc.1
  m.set rc.1 rc.2 (if cnt > 4 then 0 else 1)

/-- Row-major list of all cell coordinates `(r, c)`,
`r = 0..h-1` outer, `c = 0..w-1` inner — the iteration order of the
nested `for` loops in `Engine::perform_cellular_automaton`. -/
def row_major (w h : Int) : List (Int × Int) :=
  (List.range h.toNat).flatMap fun (r : Nat) =>
    (List.range w.toNat).map fun (c : Nat) => ((r : Int), (c : Int))

/-- One full smoothing pass over the grid, updating in place cell by cell
in row-major order (the body of the `for (p ...)` loop in
`Engine::perform_cellular_automaton`). -/
def ca_pass (map_width map_height : Int) (m : Grid) : Grid :=
  (row_major map_width map_height).foldl (ca_step map_width map_height) m

/-- `Engine::perform_cellular_automaton` (engine.cpp): `passes` in-place
smoothing passes over the grid. -/
def perform_cellular_automaton (map_width map_height : Int) (m : Grid) : Nat → Grid
  | 0 => m
  | n + 1 => ca_pass map_width map_height (perform_cellular_automaton map_width map_height m n)

/-- Reference smoothing pass, following the spec's words: every cell's
3x3 wall-neighbor count is computed from an unmodified snapshot of the
input grid; cells outside the grid are untouched. -/
def snapshot_pass (map_width map_height : Int) (m : Grid) : Grid :=
  fun r c =>
    if 0 ≤ r ∧ r < map_height ∧ 0 ≤ c ∧ c < map_width then
      if get_neighbor_wall_count m map_width map_height c r > 4 then 0 else 1
    else m r c

/-- The concrete 5x5 grid exhibiting in-place feedback: three wall cells
on row 3, floor everywhere else. -/
def caFeedbackGrid : Grid :=
  fun r c => if r = 3 ∧ (c = 1 ∨ c = 2 ∨ c = 3) then 0 else 1

/-! ## Viewport (Engine::update_player_viewport, engine.cpp) -/

/-- `std::clamp(v, lo, hi)`. -/
def cpp_clamp (v lo hi : Int) : Int :=
  if v < lo then lo else if hi < v then hi else v

/-- `Engine::update_player_viewport` (engine.cpp): the computed viewport
origin `(view_port_x, view_port_y)` for a tracked player position,
map size, and the engine's `VIEW_PORT_WIDTH`/`VIEW_PORT_HEIGHT`. -/
def update_player_viewport (player_position : Point) (map_width map_height : Int)
    (VIEW_PORT_WIDTH VIEW_PORT_HEIGHT : Int) : Point :=
  { x := cpp_clamp (player_position.x - VIEW_PORT_WIDTH / 2) 0 (map_width - VIEW_PORT_WIDTH)
    y := cpp_clamp (player_position.y - VIEW_PORT_HEIGHT / 2) 0 (map_height - VIEW_PORT_HEIGHT) }

/-! ## Entity registry (EntityManager, engine.cpp) -/

/-- An entity held by the `EntityManager` registry (engine.h/engine.cpp);
only the generated unique id is relevant to `remove_entity`. -/
structure EmEntity where
  id : String
deriving DecidableEq, Repr

/-- `roguely::ecs::EntityGroup` as the `EntityManager` uses it: a name and
an owned ordered sequence of entities. -/
structure EntityGroup where
  name : String
  entities : List EmEntity
deriving DecidableEq, Repr

/-- `EntityManager::get_entity_group` (engine.cpp): `std::find_if` over
the group list, returning the first group with the given name, if any. -/
def get_entity_group : List EntityGroup → String → Option EntityGroup
  | [], _ => none
  | g :: gs, n => if g.name = n then some g else get_entity_group gs n

/-- The `std::find_if` plus `erase` pair inside
`EntityManager::remove_entity` (engine.cpp): drop the first entity whose
id matches, keeping every other entity in order. -/
def erase_first_by_id : List EmEntity → String → List EmEntity
  | [], _ => []
  | e :: es, i => if e.id = i then es else e :: erase_first_by_id es i

/-- `EntityManager::remove_entity` (engine.cpp): look up the first group
with the given name; inside it, erase the first entity with the given id
(a no-op when the group or the entity is absent).  The mirrored Lua table
bookkeeping is scripting-glue state outside this model. -/
def remove_entity : List EntityGroup → String → String → List EntityGroup
  | [], _, _ => []
  | g :: gs, n, i =>
    if g.name = n then { g with entities := erase_first_by_id g.entities i } :: gs
    else g :: remove_entity gs n i

/-! ## Random point search (Map::get_random_point, engine.cpp) -/

/-- The bounded sampling loop of `Map::get_random_point` (engine.cpp),
`while (attempts++ < maxAttempts)`: the remaining iteration budget is the
structural argument, `attempts` counts iterations already made, and
`rand n lo hi` is the value returned by the n-th `generate_random_int`
call this function makes (each iteration draws `row` with bounds
`(0, height-1)` and then `col` with bounds `(0, width-1)`). -/
def get_random_point_loop (width height : Int) (m : Grid) (off_limit_sprites_ids : List Int)
    (rand : Nat → Int → Int → Int) : Nat → Nat → Except String Point
  | 0, _ => .error "Unable to find a random point in map"
  | fuel + 1, attempts =>
    let row := rand (2 * attempts) 0 (height - 1)
    let col := rand (2 * attempts + 1) 0 (width - 1)
    if off_limit_sprites_ids.contains (m row col) then
      get_random_point_loop width height m off_limit_sprites_ids rand fuel (attempts + 1)
    else
      .ok { x := col, y := row }

/-- `Map::get_random_point` (engine.cpp): empty or degenerate maps throw;
with no off-limit cell values a single draw of `x` (bounds `(0, width-1)`)
and `y` (bounds `(0, height-1)`) is returned unconditionally; otherwise
the sampling loop runs with budget `maxAttempts = height * width`. -/
def get_random_point (width height : Int) (m : Grid) (off_limit_sprites_ids : List Int)
    (rand : Nat → Int → Int → Int) : Except String Point :=
  if width ≤ 0 ∨ height ≤ 0 then .error "Empty map"
  else if off_limit_sprites_ids.isEmpty then
    .ok { x := rand 0 0 (width - 1), y := rand 1 0 (height - 1) }
  else
    get_random_point_loop width height m off_limit_sprites_ids rand (height * width).toNat 0

/-! ## Field of view (Map::calculate_field_of_view, engine.cpp) -/

/-- The C `(int)` cast of a floating value, truncation toward zero,
modelled on `ℚ`. -/
def c_int_cast (q : ℚ) : Int :=
  if q < 0 then -Rat.floor (-q) else Rat.floor q

/-- The inner `while` ray march of `Map::calculate_field_of_view`
(engine.cpp): while `(newX, newY)` is inside the map, mark the containing
cell visible (`1`), stop right after marking a wall cell (`0`), else
advance by `(dx, dy)`.  The fuel bounds the structural recursion; the C++
loop advances by a unit-length direction each iteration, so any fuel of
at least `width + height + 2` reproduces a terminating run. -/
def fov_ray (map : Grid) (width height : Int) (dx dy : ℚ) :
    Nat → ℚ → ℚ → Grid → Grid
  | 0, _, _, light => light
  | fuel + 1, newX, newY, light =>
    if 0 ≤ newX ∧ newX < (width : ℚ) ∧ 0 ≤ newY ∧ newY < (height : ℚ) then
      if map (c_int_cast newY) (c_int_cast newX) = 0 then
        light.set (c_int_cast newY) (c_int_cast newX) 1
      else
        fov_ray map width height dx dy fuel (newX + dx) (newY + dy)
          (light.set (c_int_cast newY) (c_int_cast newX) 1)
    else light

/-- `Map::calculate_field_of_view` (engine.cpp): a fresh all-zero light
map; for each angle `0..359` the ray starts one direction step away from
the focus point (`dimensions.supplemental_point`) and marches.  The
directions `(cos(angle * 0.01745329f), sin(angle * 0.01745329f))`
produced by the C float library are supplied as the table `dirs`. -/
def calculate_field_of_view (map : Grid) (width height : Int) (focus : Point)
    (dirs : Nat → ℚ × ℚ) (fuel : Nat) : Grid :=
  (List.range 360).foldl
    (fun light angle =>
      fov_ray map width height (dirs angle).1 (dirs angle).2 fuel
        ((focus.x : ℚ) + (dirs angle).1) ((focus.y : ℚ) + (dirs angle).2) light)
    (fun _ _ => 0)

/-! ## A* pathfinding (AStar::FindPath, engine.cpp) -/

namespace AStar

/-- A parent matrix as a total function (`GenericMatrix<std::pair<int,int>>`
in `AStar::FindPath`). -/
def PGrid := Int → Int → Int × Int

/-- Pointwise update of a parent matrix, modelling `parent(r, c) = v`. -/
def PGrid.set (m : PGrid) (r c : Int) (v : Int × Int) : PGrid :=
  fun r' c' => if r' = r ∧ c' = c then v else m r' c'

/-- `AStar::heuristic` (engine.h): Manhattan distance. -/
def heuristic (x1 y1 x2 y2 : Int) : Int := |x1 - x2| + |y1 - y2|

/-- The neighbor offsets `(dx[i], dy[i])` of `AStar` (engine.h) in loop
order `i = 0..3`: up, down, left, right. -/
def offsets : List (Int × Int) := [(-1, 0), (1, 0), (0, -1), (0, 1)]

/-- `INT_MAX`, the initial cost of every cell. -/
def INT_MAX : Int := 2147483647

/-- Strict lexicographic order on priority-queue entries
(`std::pair<int, std::pair<int,int>>` under `std::greater`, so the popped
entry is the least). -/
def pq_ltb (a b : Int × (Int × Int)) : Bool :=
  if a.1 < b.1 then true
  else if a.1 = b.1 then
    if a.2.1 < b.2.1 then true
    else if a.2.1 = b.2.1 then decide (a.2.2 < b.2.2)
    else false
  else false

/-- The least entry of the open list (what `open_list.top()` yields under
`std::greater`; all entries pushed by `FindPath` are pairwise distinct, so
the minimum is unique). -/
def pq_min : List (Int × (Int × Int)) → Option (Int × (Int × Int))
  | [] => none
  | e :: es => some (es.foldl (fun best x => if pq_ltb x best then x else best) e)

/-- Remove the first occurrence of an entry (`open_list.pop()`). -/
def remove_first_entry : List (Int × (Int × Int)) → (Int × (Int × Int)) →
    List (Int × (Int × Int))
  | [], _ => []
  | e :: es, v => if e = v then es else e :: remove_first_entry es v

/-- Path reconstruction in `AStar::FindPath`: walk parents from the goal
until the start pair is reached, accumulating cells; the final
`std::reverse` is modelled by consing.  Fuel exhaustion (impossible for
runs the C++ loop completes) yields `none`. -/
def reconstruct (parent : PGrid) (start_row start_col : Int) :
    Nat → Int × Int → List (Int × Int) → Option (List (Int × Int))
  | 0, _, _ => none
  | fuel + 1, xy, acc =>
    if xy.1 = start_row ∧ xy.2 = start_col then some ((start_row, start_col) :: acc)
    else reconstruct parent start_row start_col fuel (parent xy.1 xy.2) (xy :: acc)

/-- One iteration of the neighbor loop (`for (int i = 0; i < 4; ++i)`) of
`AStar::FindPath`, threading the open list, cost matrix and parent
matrix. -/
def neighbor_step (grid : Grid) (grid_rows grid_cols goal_row goal_col x y : Int)
    (st : List (Int × (Int × Int)) × Grid × PGrid) (d : Int × Int) :
    List (Int × (Int × Int)) × Grid × PGrid :=
  let nx := x + d.1
  let ny := y + d.2
  if 0 ≤ nx ∧ nx < grid_rows ∧ 0 ≤ ny ∧ ny < grid_cols ∧ grid nx ny = 0 then
    let new_cost := st.2.1 x y + 1
    if new_cost < st.2.1 nx ny then
      ((new_cost + heuristic nx ny goal_col goal_row, (nx, ny)) :: st.1,
        (st.2.1).set nx ny new_cost,
        (st.2.2).set nx ny (x, y))
    else st
  else st

/-- The main `while (!open_list.empty())` loop of `AStar::FindPath`.  Each
iteration pops the least entry; on reaching the cell compared against
`(goal_col, goal_row)` the path is reconstructed, otherwise the four
neighbors are expanded.  Fuel exhaustion (impossible for runs the C++
loop completes) yields the empty path. -/
def find_path_loop (grid : Grid) (grid_rows grid_cols start_row start_col goal_row goal_col : Int) :
    Nat → List (Int × (Int × Int)) → Grid → PGrid → List (Int × Int)
  | 0, _, _, _ => []
  | fuel + 1, open_list, cost, parent =>
    match pq_min open_list with
    | none => []
    | some entry =>
      let rest := remove_first_entry open_list entry
      let x := entry.2.1
      let y := entry.2.2
      if x = goal_col ∧ y = goal_row then
        match reconstruct parent start_row start_col (fuel + 1) (x, y) [] with
        | some p => p
        | none => []
      else
        let st := offsets.foldl
          (neighbor_step grid grid_rows grid_cols goal_row goal_col x y)
          (rest, cost, parent)
        find_path_loop grid grid_rows grid_cols start_row start_col goal_row goal_col
          fuel st.1 st.2.1 st.2.2

/-- `AStar::FindPath` (engine.cpp).  The initial blocked test reads
`grid(start_col, start_row)` — the transposed cell — exactly as the code
does; the cost matrix starts at `INT_MAX` except `0` at the start cell,
and the start entry is pushed with priority `0`. -/
def FindPath (grid : Grid) (grid_rows grid_cols start_row start_col goal_row goal_col : Int)
    (fuel : Nat) : List (Int × Int) :=
  if grid start_col start_row ≠ 0 then []
  else
    find_path_loop grid grid_rows grid_cols start_row start_col goal_row goal_col fuel
      [(0, (start_row, start_col))]
      (Grid.set (fun _ _ => INT_MAX) start_row start_col 0)
      (fun _ _ => (0, 0))

/-- Whether consecutive path cells are 4-connected (each step changes
exactly one coordinate by exactly one). -/
def four_connected : List (Int × Int) → Bool
  | [] => true
  | [_] => true
  | a :: b :: rest =>
    decide ((a.1 - b.1).natAbs + (a.2 - b.2).natAbs = 1) && four_connected (b :: rest)

/-- The fully open 5x5 grid of the C4 scenario: every cell walkable (0). -/
def openGrid5 : Grid := fun _ _ => 0

/-- The 2x2 grid of the C3 scenario: only cell `(0, 1)` is blocked. -/
def c3Grid : Grid := fun r c => if r = 0 ∧ c = 1 then 1 else 0

end AStar

/-! ## Spatial query layer (Game::is_xy_blocked, Game.cpp) -/

namespace Game

/-- `roguely::ecs::Entity` as the spatial queries of Game.cpp read it:
a grid position (`e->x()`, `e->y()`). -/
structure Entity where
  x : Int
  y : Int
deriving DecidableEq, Repr

/-- `roguely::ecs::EntityGroup` (Game.cpp): a named ordered sequence of
entities. -/
structure EntityGroup where
  name : String
  entities : List Entity
deriving DecidableEq, Repr

/-- `Game::get_entity_group` (Game.cpp): `std::find_if` over the group
list, returning the first group with the given name, if any. -/
def get_entity_group : List EntityGroup → String → Option EntityGroup
  | [], _ => none
  | g :: gs, n => if g.name = n then some g else get_entity_group gs n

/-- Modelled from the spec: the two-argument overload
`Game::is_entity_location_traversable(x, y, entities)` is declared in
Game.h, which is absent from the sources.  Per the spec's blocking rule
("true if ... any entity in any of the given groups occupies (x,y)"),
the location is traversable for a group exactly when no entity of the
group occupies `(x, y)`. -/
def is_entity_location_traversable (x y : Int) (entities : List Entity) : Bool :=
  entities.all fun e => !(e.x == x && e.y == y)

/-- The group-scanning loop of `Game::is_xy_blocked` (Game.cpp) with its
`blocked` accumulator: an existing, traversable group sets
`blocked = false` and continues; a missing group or an occupied location
sets `blocked = true` and breaks. -/
def is_xy_blocked_loop (groups : List EntityGroup) (x y : Int) :
    List String → Bool → Bool
  | [], blocked => blocked
  | gname :: rest, _ =>
    match get_entity_group groups gname with
    | some g =>
      if is_entity_location_traversable x y g.entities then
        is_xy_blocked_loop groups x y rest false
      else true
    | none => true

/-- `Game::is_xy_blocked` (Game.cpp): blocked when the queried point
shares a coordinate with the tracked player, the current map is missing,
the map cell at `(y, x)` is a wall (`0`), or the group loop reports a
block; the map is passed as an optional wall grid. -/
def is_xy_blocked (player : Point) (map : Option Grid) (groups : List EntityGroup)
    (entity_groups_to_check : List String) (x y : Int) : Bool :=
  if player.x = x ∨ player.y = y then true
  else
    match map with
    | none => true
    | some m =>
      if m y x = 0 then true
      else is_xy_blocked_loop groups x y entity_groups_to_check true

end Game

end Roguely

namespace Roguely

/-! ## Lemmas and claim theorems -/

lemma erase_first_by_id_of_no_match (l : List EmEntity) (i : String)
    (hno : ∀ e ∈ l, e.id ≠ i) : erase_first_by_id l i = l := by
  induction l with
  | nil => rfl
  | cons e es ih =>
    unfold erase_first_by_id
    rw [if_neg (hno e (List.mem_cons_self e es))]
    rw [ih fun e2 he2 => hno e2 (List.mem_cons_of_mem e he2)]

lemma erase_first_by_id_of_match (pre post : List EmEntity) (e : EmEntity) (i : String)
    (hpre : ∀ e2 ∈ pre, e2.id ≠ i) (he : e.id = i) :
    erase_first_by_id (pre ++ e :: post) i = pre ++ post := by
  induction pre with
  | nil =>
    rw [List.nil_append, List.nil_append]
    unfold erase_first_by_id
    rw [if_pos he]
  | cons p ps ih =>
    rw [List.cons_append, List.cons_append]
    unfold erase_first_by_id
    rw [if_neg (hpre p (List.mem_cons_self p ps))]
    rw [ih fun e2 he2 => hpre e2 (List.mem_cons_of_mem p he2)]

lemma neighbor_contrib_nonneg (m : Grid) (w h row col : Int) :
    0 ≤ neighbor_contrib m w h row col := by
  unfold neighbor_contrib
  split
  · split <;> omega
  · omega

lemma neighbor_contrib_eq_one (m : Grid) (w h row col : Int)
    (hout : row < 1 ∨ col < 1 ∨ h - 1 ≤ row ∨ w - 1 ≤ col) :
    neighbor_contrib m w h row col = 1 := by
  unfold neighbor_contrib
  rw [if_neg]
  omega

lemma border_wall_count_gt_four (m : Grid) (w h x y : Int)
    (hb : y = 0 ∨ y = h - 1 ∨ x = 0 ∨ x = w - 1) :
    get_neighbor_wall_count m w h x y > 4 := by
  unfold get_neighbor_wall_count
  rcases hb with hy | hy | hx | hx
  · have e1 := neighbor_contrib_eq_one m w h (y - 1) (x - 1) (by omega)
    have e2 := neighbor_contrib_eq_one m w h (y - 1) x (by omega)
    have e3 := neighbor_contrib_eq_one m w h (y - 1) (x + 1) (by omega)
    have e4 := neighbor_contrib_eq_one m w h y (x - 1) (by omega)
    have e5 := neighbor_contrib_eq_one m w h y x (by omega)
    have e6 := neighbor_contrib_eq_one m w h y (x + 1) (by omega)
    have n7 := neighbor_contrib_nonneg m w h (y + 1) (x - 1)
    have n8 := neighbor_contrib_nonneg m w h (y + 1) x
    have n9 := neighbor_contrib_nonneg m w h (y + 1) (x + 1)
    omega
  · have e4 := neighbor_contrib_eq_one m w h y (x - 1) (by omega)
    have e5 := neighbor_contrib_eq_one m w h y x (by omega)
    have e6 := neighbor_contrib_eq_one m w h y (x + 1) (by omega)
    have e7 := neighbor_contrib_eq_one m w h (y + 1) (x - 1) (by omega)
    have e8 := neighbor_contrib_eq_one m w h (y + 1) x (by omega)
    have e9 := neighbor_contrib_eq_one m w h (y + 1) (x + 1) (by omega)
    have n1 := neighbor_contrib_nonneg m w h (y - 1) (x - 1)
    have n2 := neighbor_contrib_nonneg m w h (y - 1) x
    have n3 := neighbor_contrib_nonneg m w h (y - 1) (x + 1)
    omega
  · have e1 := neighbor_contrib_eq_one m w h (y - 1) (x - 1) (by omega)
    have e2 := neighbor_contrib_eq_one m w h (y - 1) x (by omega)
    have e4 := neighbor_contrib_eq_one m w h y (x - 1) (by omega)
    have e5 := neighbor_contrib_eq_one m w h y x (by omega)
    have e7 := neighbor_contrib_eq_one m w h (y + 1) (x - 1) (by omega)
    have e8 := neighbor_contrib_eq_one m w h (y + 1) x (by omega)
    have n3 := neighbor_contrib_nonneg m w h (y - 1) (x + 1)
    have n6 := neighbor_contrib_nonneg m w h y (x + 1)
    have n9 := neighbor_contrib_nonneg m w h (y + 1) (x + 1)
    omega
  · have e2 := neighbor_contrib_eq_one m w h (y - 1) x (by omega)
    have e3 := neighbor_contrib_eq_one m w h (y - 1) (x + 1) (by omega)
    have e5 := neighbor_contrib_eq_one m w h y x (by omega)
    have e6 := neighbor_contrib_eq_one m w h y (x + 1) (by omega)
    have e8 := neighbor_contrib_eq_one m w h (y + 1) x (by omega)
    have e9 := neighbor_contrib_eq_one m w h (y + 1) (x + 1) (by omega)
    have n1 := neighbor_contrib_nonneg m w h (y - 1) (x - 1)
    have n4 := neighbor_contrib_nonneg m w h y (x - 1)
    have n7 := neighbor_contrib_nonneg m w h (y + 1) (x - 1)
    omega

lemma foldl_ca_step_border (w h r c : Int)
    (hcount : ∀ m : Grid, get_neighbor_wall_count m w h c r > 4) :
    ∀ (cells : List (Int × Int)) (m : Grid), ((r, c) ∈ cells ∨ m r c = 0) →
      (cells.foldl (ca_step w h) m) r c = 0 := by
  intro cells
  induction cells with
  | nil =>
    intro m hm
    rcases hm with hmem | h0
    · exact absurd hmem (List.not_mem_nil _)
    · simpa using h0
  | cons hd tl ih =>
    intro m hm
    rw [List.foldl_cons]
    apply ih
    by_cases hrc : r = hd.1 ∧ c = hd.2
    · right
      unfold ca_step Grid.set
      rw [if_pos hrc]
      have hgt := hcount m
      rw [hrc.1, hrc.2] at hgt
      rw [if_pos hgt]
    · rcases hm with hmem | h0
      · rcases List.mem_cons.mp hmem with heq | htl
        · exact absurd ⟨congrArg Prod.fst heq, congrArg Prod.snd heq⟩ hrc
        · left
          exact htl
      · right
        unfold ca_step Grid.set
        rw [if_neg hrc]
        exact h0

lemma mem_row_major (w h r c : Int) (hr0 : 0 ≤ r) (hrh : r < h) (hc0 : 0 ≤ c) (hcw : c < w) :
    (r, c) ∈ row_major w h := by
  unfold row_major
  have hrmem : r.toNat ∈ List.range h.toNat := List.mem_range.mpr (by omega)
  have hcmem : c.toNat ∈ List.range w.toNat := List.mem_range.mpr (by omega)
  apply List.mem_flatMap.mpr
  refine ⟨r.toNat, hrmem, ?_⟩
  rw [show (r, c) = ((r.toNat : Int), (c.toNat : Int)) by
    rw [Int.toNat_of_nonneg hr0, Int.toNat_of_nonneg hc0]]
  exact List.mem_map_of_mem (fun c0 : ℕ => ((r.toNat : Int), (c0 : Int))) hcmem

lemma ca_pass_border (w h : Int) (m : Grid) (r c : Int)
    (hr0 : 0 ≤ r) (hrh : r < h) (hc0 : 0 ≤ c) (hcw : c < w)
    (hb : r = 0 ∨ r = h - 1 ∨ c = 0 ∨ c = w - 1) :
    ca_pass w h m r c = 0 := by
  unfold ca_pass
  apply foldl_ca_step_border
  · intro m'
    exact border_wall_count_gt_four m' w h c r hb
  · left
    exact mem_row_major w h r c hr0 hrh hc0 hcw

/-- C9: after at least one smoothing pass of `perform_cellular_automaton`
on any grid with `width ≥ 1` and `height ≥ 1`, every cell on the outer
border of the grid (row `0`, row `height-1`, column `0`, or column
`width-1`) is a wall (`0`); since this holds of the output of every pass,
the all-walls border is preserved by every subsequent pass. -/
theorem C9_border_all_walls (w h : Int) (m : Grid) (passes : Nat)
    (_hw : 1 ≤ w) (_hh : 1 ≤ h) (hp : 1 ≤ passes) (r c : Int)
    (hr0 : 0 ≤ r) (hrh : r < h) (hc0 : 0 ≤ c) (hcw : c < w)
    (hb : r = 0 ∨ r = h - 1 ∨ c = 0 ∨ c = w - 1) :
    perform_cellular_automaton w h m passes r c = 0 := by
  obtain ⟨n, rfl⟩ : ∃ n, passes = n + 1 := ⟨passes - 1, by omega⟩
  unfold perform_cellular_automaton
  exact ca_pass_border w h _ r c hr0 hrh hc0 hcw hb

/-- Witness for C9 at a concrete input: a 3x3 all-floor grid, one pass;
the corner cell `(0,0)` of the result is a wall. -/
theorem C9_border_all_walls_witness :
    perform_cellular_automaton 3 3 (fun _ _ => 1) 1 0 0 = 0 :=
  C9_border_all_walls 3 3 (fun _ _ => 1) 1 (by norm_num) (by norm_num)
    (by norm_num) 0 0 (by norm_num) (by norm_num) (by norm_num) (by norm_num)
    (Or.inl rfl)

lemma is_entity_location_traversable_eq_false_iff (x y : Int) (l : List Game.Entity) :
    Game.is_entity_location_traversable x y l = false ↔
      ∃ e ∈ l, e.x = x ∧ e.y = y := by
  unfold Game.is_entity_location_traversable
  rw [List.all_eq_false]
  constructor
  · rintro ⟨e, he, hne⟩
    refine ⟨e, he, ?_⟩
    simpa using hne
  · rintro ⟨e, he, hxy⟩
    refine ⟨e, he, ?_⟩
    simpa using hxy

lemma is_xy_blocked_loop_true_iff (groups : List Game.EntityGroup) (x y : Int) :
    ∀ (toCheck : List String) (b : Bool),
      Game.is_xy_blocked_loop groups x y toCheck b = true ↔
        ((toCheck = [] ∧ b = true) ∨ ∃ n ∈ toCheck,
          Game.get_entity_group groups n = none ∨
          ∃ g, Game.get_entity_group groups n = some g ∧
            Game.is_entity_location_traversable x y g.entities = false) := by
  intro toCheck
  induction toCheck with
  | nil =>
    intro b
    simp [Game.is_xy_blocked_loop]
  | cons n rest ih =>
    intro b
    unfold Game.is_xy_blocked_loop
    cases hg : Game.get_entity_group groups n with
    | none =>
      constructor
      · intro _
        exact Or.inr ⟨n, List.mem_cons_self n rest, Or.inl hg⟩
      · intro _
        rfl
    | some g =>
      dsimp only
      by_cases ht : Game.is_entity_location_traversable x y g.entities = true
      · rw [if_pos ht, ih false]
        constructor
        · rintro (⟨_, hfalse⟩ | ⟨n2, hn2, hbad⟩)
          · exact absurd hfalse (by simp)
          · exact Or.inr ⟨n2, List.mem_cons_of_mem n hn2, hbad⟩
        · rintro (⟨hcons, _⟩ | ⟨n2, hn2, hbad⟩)
          · exact absurd hcons (by simp)
          · rcases List.mem_cons.mp hn2 with rfl | hmem
            · rcases hbad with hnone | ⟨g2, hg2, htrav⟩
              · rw [hg] at hnone
                exact absurd hnone (by simp)
              · rw [hg] at hg2
                have hgg : g = g2 := Option.some.inj hg2
                rw [← hgg] at htrav
                rw [ht] at htrav
                exact absurd htrav (by simp)
            · exact Or.inr ⟨n2, hmem, hbad⟩
      · rw [if_neg ht]
        constructor
        · intro _
          have hf : Game.is_entity_location_traversable x y g.entities = false :=
            Bool.eq_false_iff.mpr ht
          exact Or.inr ⟨n, List.mem_cons_self n rest, Or.inr ⟨g, hg, hf⟩⟩
        · intro _
          rfl

lemma get_random_point_loop_ok_or_error (width height : Int) (m : Grid)
    (off : List Int) (rand : Nat → Int → Int → Int) :
    ∀ (fuel attempts : Nat),
      (∃ p, get_random_point_loop width height m off rand fuel attempts = .ok p ∧
        off.contains (m p.y p.x) = false) ∨
      get_random_point_loop width height m off rand fuel attempts =
        .error "Unable to find a random point in map" := by
  intro fuel
  induction fuel with
  | zero =>
    intro _
    right
    rfl
  | succ n ih =>
    intro attempts
    unfold get_random_point_loop
    by_cases hc : off.contains
        (m (rand (2 * attempts) 0 (height - 1)) (rand (2 * attempts + 1) 0 (width - 1))) = true
    · rw [if_pos hc]
      exact ih (attempts + 1)
    · rw [if_neg hc]
      left
      exact ⟨_, rfl, Bool.eq_false_iff.mpr hc⟩

lemma get_random_point_loop_rand_agree (width height : Int) (m : Grid)
    (off : List Int) (rand rand2 : Nat → Int → Int → Int) :
    ∀ (fuel attempts : Nat),
      (∀ n, 2 * attempts ≤ n → n < 2 * attempts + 2 * fuel →
        ∀ lo hi, rand2 n lo hi = rand n lo hi) →
      get_random_point_loop width height m off rand fuel attempts =
        get_random_point_loop width height m off rand2 fuel attempts := by
  intro fuel
  induction fuel with
  | zero =>
    intro _ _
    rfl
  | succ n ih =>
    intro attempts hagree
    unfold get_random_point_loop
    rw [hagree (2 * attempts) (by omega) (by omega),
      hagree (2 * attempts + 1) (by omega) (by omega)]
    by_cases hc : off.contains
        (m (rand (2 * attempts) 0 (height - 1)) (rand (2 * attempts + 1) 0 (width - 1))) = true
    · rw [if_pos hc, if_pos hc]
      exact ih (attempts + 1) fun k hk1 hk2 lo hi => hagree k (by omega) (by omega) lo hi
    · rw [if_neg hc, if_neg hc]

/-- C6: with a non-empty off-limit set on a positive-size map,
`Map::get_random_point` makes at most `width * height` sampling attempts
(it reads at most the first `2 * width * height` values of the random
stream: any two streams agreeing there give the same result) and then
terminates, either returning a point whose cell value is not off limits
or failing with the hard "Unable to find a random point in map" error. -/
theorem C6_get_random_point_bounded_attempts (width height : Int) (m : Grid)
    (off : List Int) (rand : Nat → Int → Int → Int)
    (hw : 0 < width) (hh : 0 < height) (hne : off ≠ []) :
    ((∃ p, get_random_point width height m off rand = .ok p ∧
        off.contains (m p.y p.x) = false) ∨
      get_random_point width height m off rand =
        .error "Unable to find a random point in map") ∧
    (∀ rand2 : Nat → Int → Int → Int,
      (∀ n, n < 2 * (height * width).toNat → ∀ lo hi, rand2 n lo hi = rand n lo hi) →
      get_random_point width height m off rand =
        get_random_point width height m off rand2) := by
  have hdeg : ¬(width ≤ 0 ∨ height ≤ 0) := by omega
  have hemp : off.isEmpty = false := by
    cases off with
    | nil => exact absurd rfl hne
    | cons a l => rfl
  constructor
  · unfold get_random_point
    rw [if_neg hdeg, hemp]
    simp only [Bool.false_eq_true, if_false]
    exact get_random_point_loop_ok_or_error width height m off rand (height * width).toNat 0
  · intro rand2 hagree
    unfold get_random_point
    rw [if_neg hdeg, if_neg hdeg, hemp]
    simp only [Bool.false_eq_true, if_false]
    exact get_random_point_loop_rand_agree width height m off rand rand2
      (height * width).toNat 0 fun n h1 h2 lo hi => hagree n (by omega) lo hi

/-- Witness for C6 at a concrete input: a 1x1 map whose only cell value 5
is off limits; the single permitted attempt fails and the loop aborts
with the hard error. -/
theorem C6_get_random_point_bounded_attempts_witness :
    (0 : Int) < 1 ∧ ([(5 : Int)] ≠ []) ∧
    (((∃ p, get_random_point 1 1 (fun _ _ => 5) [5] (fun _ _ _ => 0) = .ok p ∧
        [(5 : Int)].contains ((fun _ _ => (5 : Int)) p.y p.x) = false) ∨
      get_random_point 1 1 (fun _ _ => 5) [5] (fun _ _ _ => 0) =
        .error "Unable to find a random point in map") ∧
    (∀ rand2 : Nat → Int → Int → Int,
      (∀ n, n < 2 * ((1 : Int) * 1).toNat → ∀ lo hi, rand2 n lo hi = (fun _ _ _ => (0 : Int)) n lo hi) →
      get_random_point 1 1 (fun _ _ => 5) [5] (fun _ _ _ => 0) =
        get_random_point 1 1 (fun _ _ => 5) [5] rand2)) :=
  ⟨by norm_num, by simp,
    C6_get_random_point_bounded_attempts 1 1 (fun _ _ => 5) [5] (fun _ _ _ => 0)
      (by norm_num) (by norm_num) (by simp)⟩

/-- C10: with an empty off-limit set on a positive-size map,
`Map::get_random_point` immediately returns the single pair of draws
(`x` in `[0, width-1]`, `y` in `[0, height-1]` whenever the random source
respects its bounds), never reads the map's cells (the result is the same
for every grid), and never returns the exhausted-attempts error. -/
theorem C10_get_random_point_empty_offlimits (width height : Int) (m m2 : Grid)
    (rand : Nat → Int → Int → Int) (hw : 0 < width) (hh : 0 < height)
    (hrx : 0 ≤ rand 0 0 (width - 1) ∧ rand 0 0 (width - 1) ≤ width - 1)
    (hry : 0 ≤ rand 1 0 (height - 1) ∧ rand 1 0 (height - 1) ≤ height - 1) :
    get_random_point width height m [] rand =
      .ok { x := rand 0 0 (width - 1), y := rand 1 0 (height - 1) } ∧
    (∃ p, get_random_point width height m [] rand = .ok p ∧
      0 ≤ p.x ∧ p.x ≤ width - 1 ∧ 0 ≤ p.y ∧ p.y ≤ height - 1) ∧
    get_random_point width height m [] rand = get_random_point width height m2 [] rand ∧
    (∀ msg, get_random_point width height m [] rand ≠ .error msg) := by
  have hdeg : ¬(width ≤ 0 ∨ height ≤ 0) := by omega
  have hres : get_random_point width height m [] rand =
      .ok { x := rand 0 0 (width - 1), y := rand 1 0 (height - 1) } := by
    unfold get_random_point
    rw [if_neg hdeg]
    rfl
  have hres2 : get_random_point width height m2 [] rand =
      .ok { x := rand 0 0 (width - 1), y := rand 1 0 (height - 1) } := by
    unfold get_random_point
    rw [if_neg hdeg]
    rfl
  refine ⟨hres, ⟨_, hres, hrx.1, hrx.2, hry.1, hry.2⟩, ?_, ?_⟩
  · rw [hres, hres2]
  · intro msg hcontra
    rw [hres] at hcontra
    exact Except.noConfusion hcontra

/-- Witness for C10 at a concrete input: a 2x3 map, a random source that
always returns the lower bound; the draw `(0, 0)` is returned at once. -/
theorem C10_get_random_point_empty_offlimits_witness :
    get_random_point 2 3 (fun _ _ => 0) [] (fun _ lo _ => lo) =
      .ok { x := 0, y := 0 } ∧
    (∀ msg, get_random_point 2 3 (fun _ _ => 0) [] (fun _ lo _ => lo) ≠ .error msg) :=
  ⟨(C10_get_random_point_empty_offlimits 2 3 (fun _ _ => 0) (fun _ _ => 1)
      (fun _ lo _ => lo) (by norm_num) (by norm_num) (by norm_num) (by norm_num)).1,
   (C10_get_random_point_empty_offlimits 2 3 (fun _ _ => 0) (fun _ _ => 1)
      (fun _ lo _ => lo) (by norm_num) (by norm_num) (by norm_num) (by norm_num)).2.2.2⟩

lemma c_int_cast_int_add (x : Int) (d : ℚ) (hx0 : 0 ≤ x)
    (hd0 : 0 ≤ d) (hd1 : d < 1) : c_int_cast ((x : ℚ) + d) = x := by
  have hxq : (0 : ℚ) ≤ (x : ℚ) := by exact_mod_cast hx0
  have hq : ¬((x : ℚ) + d < 0) := by linarith
  unfold c_int_cast
  rw [if_neg hq]
  have h1 : x ≤ Rat.floor ((x : ℚ) + d) := Rat.le_floor.mpr (by linarith)
  have h2 : ¬(x + 1 ≤ Rat.floor ((x : ℚ) + d)) := by
    intro hc
    have hcast := Rat.le_floor.mp hc
    push_cast at hcast
    linarith
  omega

lemma fov_ray_preserves_mark (map : Grid) (w h : Int) (dx dy : ℚ) (r c : Int) :
    ∀ (fuel : Nat) (nx ny : ℚ) (light : Grid), light r c = 1 →
      fov_ray map w h dx dy fuel nx ny light r c = 1 := by
  intro fuel
  induction fuel with
  | zero =>
    intro nx ny light hl
    exact hl
  | succ n ih =>
    intro nx ny light hl
    have hset : (light.set (c_int_cast ny) (c_int_cast nx) 1) r c = 1 := by
      unfold Grid.set
      split
      · rfl
      · exact hl
    unfold fov_ray
    by_cases hin : 0 ≤ nx ∧ nx < (w : ℚ) ∧ 0 ≤ ny ∧ ny < (h : ℚ)
    · rw [if_pos hin]
      by_cases hwall : map (c_int_cast ny) (c_int_cast nx) = 0
      · rw [if_pos hwall]
        exact hset
      · rw [if_neg hwall]
        exact ih _ _ _ hset
    · rw [if_neg hin]
      exact hl

lemma fov_ray_marks_focus (map : Grid) (w h : Int) (x y : Int) (dx dy : ℚ)
    (hx0 : 0 ≤ x) (hxw : x < w) (hy0 : 0 ≤ y) (hyh : y < h)
    (hdx0 : 0 ≤ dx) (hdx1 : dx < 1) (hdy0 : 0 ≤ dy) (hdy1 : dy < 1)
    (fuel : Nat) (hfuel : 1 ≤ fuel) (light : Grid) :
    fov_ray map w h dx dy fuel ((x : ℚ) + dx) ((y : ℚ) + dy) light y x = 1 := by
  obtain ⟨n, rfl⟩ : ∃ n, fuel = n + 1 := ⟨fuel - 1, by omega⟩
  have hxq : (0 : ℚ) ≤ (x : ℚ) := by exact_mod_cast hx0
  have hyq : (0 : ℚ) ≤ (y : ℚ) := by exact_mod_cast hy0
  have hxwq : (x : ℚ) + 1 ≤ (w : ℚ) := by exact_mod_cast Int.add_one_le_iff.mpr hxw
  have hyhq : (y : ℚ) + 1 ≤ (h : ℚ) := by exact_mod_cast Int.add_one_le_iff.mpr hyh
  have hin : 0 ≤ (x : ℚ) + dx ∧ (x : ℚ) + dx < (w : ℚ) ∧
      0 ≤ (y : ℚ) + dy ∧ (y : ℚ) + dy < (h : ℚ) :=
    ⟨by linarith, by linarith, by linarith, by linarith⟩
  unfold fov_ray
  rw [if_pos hin]
  rw [c_int_cast_int_add x dx hx0 hdx0 hdx1, c_int_cast_int_add y dy hy0 hdy0 hdy1]
  by_cases hwall : map y x = 0
  · rw [if_pos hwall]
    unfold Grid.set
    rw [if_pos ⟨rfl, rfl⟩]
  · rw [if_neg hwall]
    apply fov_ray_preserves_mark
    unfold Grid.set
    rw [if_pos ⟨rfl, rfl⟩]

lemma fov_fold_marks_focus (map : Grid) (w h : Int) (focus : Point)
    (dirs : Nat → ℚ × ℚ) (fuel : Nat)
    (hx0 : 0 ≤ focus.x) (hxw : focus.x < w) (hy0 : 0 ≤ focus.y) (hyh : focus.y < h)
    (hfuel : 1 ≤ fuel) :
    ∀ (angles : List Nat) (light : Grid),
      ((∃ a ∈ angles, 0 ≤ (dirs a).1 ∧ (dirs a).1 < 1 ∧
          0 ≤ (dirs a).2 ∧ (dirs a).2 < 1) ∨ light focus.y focus.x = 1) →
      (angles.foldl
        (fun light angle =>
          fov_ray map w h (dirs angle).1 (dirs angle).2 fuel
            ((focus.x : ℚ) + (dirs angle).1) ((focus.y : ℚ) + (dirs angle).2) light)
        light) focus.y focus.x = 1 := by
  intro angles
  induction angles with
  | nil =>
    intro light hl
    rcases hl with ⟨a, ha, _⟩ | hmark
    · exact absurd ha (List.not_mem_nil a)
    · exact hmark
  | cons a rest ih =>
    intro light hl
    rw [List.foldl_cons]
    by_cases hbox : 0 ≤ (dirs a).1 ∧ (dirs a).1 < 1 ∧ 0 ≤ (dirs a).2 ∧ (dirs a).2 < 1
    · apply ih
      right
      exact fov_ray_marks_focus map w h focus.x focus.y (dirs a).1 (dirs a).2
        hx0 hxw hy0 hyh hbox.1 hbox.2.1 hbox.2.2.1 hbox.2.2.2 fuel hfuel light
    · rcases hl with ⟨a2, ha2, hbox2⟩ | hmark
      · rcases List.mem_cons.mp ha2 with rfl | hmem
        · exact absurd hbox2 hbox
        · exact ih _ (Or.inl ⟨a2, hmem, hbox2⟩)
      · apply ih
        right
        exact fov_ray_preserves_mark map w h (dirs a).1 (dirs a).2 focus.y focus.x
          fuel _ _ light hmark

/-- C5: for every map of positive size and every focus point within
bounds, `Map::calculate_field_of_view` marks the focus cell itself
visible — provided some ray direction of the supplied table lies in the
unit box `[0,1) x [0,1)`, which holds of the actual float table: for
angle 1, `cos(0.01745329) ~ 0.99985` and `sin(0.01745329) ~ 0.01745`. -/
theorem C5_focus_cell_visible (map : Grid) (w h : Int) (focus : Point)
    (dirs : Nat → ℚ × ℚ) (fuel : Nat)
    (hx0 : 0 ≤ focus.x) (hxw : focus.x < w) (hy0 : 0 ≤ focus.y) (hyh : focus.y < h)
    (hfuel : 1 ≤ fuel)
    (hdir : ∃ a, a < 360 ∧ 0 ≤ (dirs a).1 ∧ (dirs a).1 < 1 ∧
      0 ≤ (dirs a).2 ∧ (dirs a).2 < 1) :
    calculate_field_of_view map w h focus dirs fuel focus.y focus.x = 1 := by
  obtain ⟨a, ha, hbox⟩ := hdir
  unfold calculate_field_of_view
  exact fov_fold_marks_focus map w h focus dirs fuel hx0 hxw hy0 hyh hfuel
    (List.range 360) (fun _ _ => 0)
    (Or.inl ⟨a, List.mem_range.mpr ha, hbox⟩)

/-- Witness for C5 at a concrete input: a 1x1 all-wall map, focus `(0,0)`,
and a direction table sending angle 1 to `(1/2, 1/2)`; the focus cell is
lit. -/
theorem C5_focus_cell_visible_witness :
    calculate_field_of_view (fun _ _ => 0) 1 1 { x := 0, y := 0 }
      (fun a => if a = 1 then ((1 : ℚ) / 2, (1 : ℚ) / 2) else (1, 0)) 1 0 0 = 1 :=
  C5_focus_cell_visible (fun _ _ => 0) 1 1 { x := 0, y := 0 }
    (fun a => if a = 1 then ((1 : ℚ) / 2, (1 : ℚ) / 2) else (1, 0)) 1
    (by norm_num) (by norm_num) (by norm_num) (by norm_num) (by norm_num)
    ⟨1, by norm_num⟩

/-- C3: evidence that a blocked start cell does not yield an empty path.
On the 2x2 grid whose only nonzero (blocked) cell is the start cell
`(row 0, col 1)`, `AStar::FindPath` to goal `(row 1, col 0)` returns the
non-empty path `[(0, 1)]`: the initial test reads the transposed cell
`grid(start_col, start_row) = grid(1, 0) = 0` — although the code comment
says it checks the starting position — and the search then runs from the
blocked start. -/
theorem C3_blocked_start_not_rejected :
    AStar.c3Grid 0 1 ≠ 0 ∧
    AStar.FindPath AStar.c3Grid 2 2 0 1 1 0 10 = [(0, 1)] ∧
    AStar.FindPath AStar.c3Grid 2 2 0 1 1 0 10 ≠ [] := by
  decide

/-- C4: on the fully open 5x5 grid, `AStar::FindPath` from `(0,0)` to
`(4,4)` returns a path of exactly 9 coordinates whose first element is
`(0,0)`, whose last element is `(4,4)`, and whose consecutive cells are
4-connected.  (The fuel 100 bounds the embedded loop; the run finishes
before exhausting it — exhaustion would return the empty path, not one of
length 9.) -/
theorem C4_findpath_open_5x5 :
    (AStar.FindPath AStar.openGrid5 5 5 0 0 4 4 100).length = 9 ∧
    (AStar.FindPath AStar.openGrid5 5 5 0 0 4 4 100).head? = some (0, 0) ∧
    (AStar.FindPath AStar.openGrid5 5 5 0 0 4 4 100).getLast? = some (4, 4) ∧
    AStar.four_connected (AStar.FindPath AStar.openGrid5 5 5 0 0 4 4 100) = true := by
  decide

/-- C2 counterexample: the player is at `(3,3)`; the cell `(3,1)` is open
floor, differs from the player's point in its y coordinate, and no entity
of the only checked group occupies it, yet `Game::is_xy_blocked` reports
it blocked, because the code tests `player->x() == x || player->y() == y`
(sharing one coordinate with the player), not coincidence with the
player's point as the claim states. -/
theorem C2_is_xy_blocked_counterexample :
    Game.is_xy_blocked { x := 3, y := 3 } (some fun _ _ => 1)
        [{ name := "mobs", entities := [] }] ["mobs"] 3 1 = true ∧
    (fun _ _ => (1 : Int)) (1 : Int) (3 : Int) ≠ 0 ∧
    ¬((3 : Int) = 3 ∧ (1 : Int) = 3) ∧
    (∀ g ∈ [({ name := "mobs", entities := [] } : Game.EntityGroup)],
      ∀ e ∈ g.entities, ¬(e.x = 3 ∧ e.y = 1)) := by
  refine ⟨rfl, by norm_num, by norm_num, ?_⟩
  intro g hg e he
  rcases List.mem_singleton.mp hg with rfl
  exact absurd he (List.not_mem_nil e)

/-- C2 amended: `Game::is_xy_blocked(x, y, groups_to_check)` returns true
exactly when the queried point shares at least one coordinate with the
tracked player (`x = player.x` or `y = player.y`) — not only when it
coincides with the player's point —, or the map cell at `(y, x)` is a
wall (`0`), or the group list is empty, or some listed group is absent
from the registry, or some entity of a listed group occupies `(x, y)`. -/
theorem C2_is_xy_blocked_characterization (player : Point) (m : Grid)
    (groups : List Game.EntityGroup) (toCheck : List String) (x y : Int) :
    Game.is_xy_blocked player (some m) groups toCheck x y = true ↔
      (player.x = x ∨ player.y = y ∨ m y x = 0 ∨ toCheck = [] ∨
        ∃ n ∈ toCheck, Game.get_entity_group groups n = none ∨
          ∃ g, Game.get_entity_group groups n = some g ∧
            ∃ e ∈ g.entities, e.x = x ∧ e.y = y) := by
  unfold Game.is_xy_blocked
  by_cases hp : player.x = x ∨ player.y = y
  · rw [if_pos hp]
    simp only [true_iff]
    rcases hp with h | h
    · exact Or.inl h
    · exact Or.inr (Or.inl h)
  · rw [if_neg hp]
    push_neg at hp
    dsimp only
    by_cases hw : m y x = 0
    · rw [if_pos hw]
      simp only [true_iff]
      exact Or.inr (Or.inr (Or.inl hw))
    · rw [if_neg hw]
      rw [is_xy_blocked_loop_true_iff groups x y toCheck true]
      constructor
      · rintro (⟨he, _⟩ | ⟨n, hn, hbad⟩)
        · exact Or.inr (Or.inr (Or.inr (Or.inl he)))
        · refine Or.inr (Or.inr (Or.inr (Or.inr ⟨n, hn, ?_⟩)))
          rcases hbad with hnone | ⟨g, hget, hf⟩
          · exact Or.inl hnone
          · exact Or.inr ⟨g, hget, (is_entity_location_traversable_eq_false_iff x y g.entities).mp hf⟩
      · rintro (h | h | h | h | ⟨n, hn, hbad⟩)
        · exact absurd h hp.1
        · exact absurd h hp.2
        · exact absurd h hw
        · exact Or.inl ⟨h, rfl⟩
        · refine Or.inr ⟨n, hn, ?_⟩
          rcases hbad with hnone | ⟨g, hget, hocc⟩
          · exact Or.inl hnone
          · exact Or.inr ⟨g, hget, (is_entity_location_traversable_eq_false_iff x y g.entities).mpr hocc⟩

/-- C8: `EntityManager::remove_entity` frame conditions.  First part: if
the named group is absent, or no entity of the (first) group with that
name carries the id, the whole registry is unchanged.  Second part: if
the first group named `n` holds a first entity with id `i` (no earlier
entity of that group matches), exactly that entity is removed; every
other entity of the group, and every other group, is unchanged. -/
theorem C8_remove_entity_frame (n i : String) :
    (∀ groups : List EntityGroup,
      (∀ eg, get_entity_group groups n = some eg → ∀ e ∈ eg.entities, e.id ≠ i) →
      remove_entity groups n i = groups) ∧
    (∀ (gpre gpost : List EntityGroup) (g : EntityGroup)
      (pre post : List EmEntity) (e : EmEntity),
      (∀ g2 ∈ gpre, g2.name ≠ n) → g.name = n →
      g.entities = pre ++ e :: post → (∀ e2 ∈ pre, e2.id ≠ i) → e.id = i →
      remove_entity (gpre ++ g :: gpost) n i =
        gpre ++ { g with entities := pre ++ post } :: gpost) := by
  constructor
  · intro groups
    induction groups with
    | nil => intro _; rfl
    | cons g gs ih =>
      intro hno
      unfold remove_entity
      by_cases hn : g.name = n
      · rw [if_pos hn]
        have hgroup : get_entity_group (g :: gs) n = some g := by
          unfold get_entity_group
          rw [if_pos hn]
        rw [erase_first_by_id_of_no_match g.entities i (hno g hgroup)]
      · rw [if_neg hn]
        rw [ih]
        intro eg heg
        apply hno eg
        unfold get_entity_group
        rw [if_neg hn]
        exact heg
  · intro gpre
    induction gpre with
    | nil =>
      intro gpost g pre post e _ hname hent hpre he
      rw [List.nil_append, List.nil_append]
      unfold remove_entity
      rw [if_pos hname, hent, erase_first_by_id_of_match pre post e i hpre he]
    | cons g2 g2s ih =>
      intro gpost g pre post e hprenames hname hent hpre he
      rw [List.cons_append, List.cons_append]
      unfold remove_entity
      rw [if_neg (hprenames g2 (List.mem_cons_self g2 g2s))]
      rw [ih gpost g pre post e
        (fun g3 hg3 => hprenames g3 (List.mem_cons_of_mem g2 hg3)) hname hent hpre he]

/-- Witness for C8 at concrete inputs: removing an unknown id from group
"mobs" is a no-op, and removing id "b" deletes exactly the first "b". -/
theorem C8_remove_entity_frame_witness :
    remove_entity [⟨"mobs", [⟨"a"⟩]⟩] "mobs" "zzz" = [⟨"mobs", [⟨"a"⟩]⟩] ∧
    remove_entity [⟨"items", [⟨"b"⟩]⟩, ⟨"mobs", [⟨"a"⟩, ⟨"b"⟩, ⟨"b"⟩]⟩] "mobs" "b" =
      [⟨"items", [⟨"b"⟩]⟩, ⟨"mobs", [⟨"a"⟩, ⟨"b"⟩]⟩] :=
  ⟨(C8_remove_entity_frame "mobs" "zzz").1 [⟨"mobs", [⟨"a"⟩]⟩] (by decide),
   (C8_remove_entity_frame "mobs" "b").2 [⟨"items", [⟨"b"⟩]⟩] []
     ⟨"mobs", [⟨"a"⟩, ⟨"b"⟩, ⟨"b"⟩]⟩ [⟨"a"⟩] [⟨"b"⟩] ⟨"b"⟩
     (by decide) (by decide) (by decide) (by decide) (by decide)⟩

/-- C7 counterexample: with `VIEW_PORT_WIDTH = 20` on a 100-wide map, the
tracked x `81` lies beyond `width - VIEW_PORT_WIDTH = 80`, yet
`Engine::update_player_viewport` computes origin x
`clamp(81 - 10, 0, 80) = 71`, not `width - VIEW_PORT_WIDTH = 80` as the
claim states. -/
theorem C7_origin_not_clamped_to_edge_counterexample :
    (81 : Int) > 100 - 20 ∧
    (update_player_viewport { x := 81, y := 0 } 100 100 20 20).x = 71 ∧
    (update_player_viewport { x := 81, y := 0 } 100 100 20 20).x ≠ 100 - 20 := by
  decide

/-- C7 amended: for `0 ≤ VIEW_PORT_WIDTH ≤ width` and
`0 ≤ VIEW_PORT_HEIGHT ≤ height`, `Engine::update_player_viewport` sets the
viewport origin to `clamp(tracked - VIEW_PORT_extent/2, 0,
map_extent - VIEW_PORT_extent)` in each axis (that is the code verbatim);
for a tracked point at `(0,0)` the origin is `(0,0)` (never negative); and
the origin x equals `width - VIEW_PORT_WIDTH` for tracked x at least
`width - VIEW_PORT_WIDTH + VIEW_PORT_WIDTH/2` (not already for every x
merely beyond `width - VIEW_PORT_WIDTH`). -/
theorem C7_viewport_clamping (w h vpw vph : Int)
    (hvpw0 : 0 ≤ vpw) (hvpww : vpw ≤ w) (hvph0 : 0 ≤ vph) (hvphh : vph ≤ h) :
    (∀ p : Point, update_player_viewport p w h vpw vph =
      { x := cpp_clamp (p.x - vpw / 2) 0 (w - vpw)
        y := cpp_clamp (p.y - vph / 2) 0 (h - vph) }) ∧
    update_player_viewport { x := 0, y := 0 } w h vpw vph = { x := 0, y := 0 } ∧
    (∀ p : Point, w - vpw + vpw / 2 ≤ p.x →
      (update_player_viewport p w h vpw vph).x = w - vpw) := by
  have hdiv0 : 0 ≤ vpw / 2 := Int.ediv_nonneg hvpw0 (by norm_num)
  have hdivle : vpw / 2 ≤ vpw := by
    have h2 := Int.ediv_le_self 2 hvpw0
    omega
  have hdivh0 : 0 ≤ vph / 2 := Int.ediv_nonneg hvph0 (by norm_num)
  have hdivhle : vph / 2 ≤ vph := by
    have h2 := Int.ediv_le_self 2 hvph0
    omega
  refine ⟨fun _ => rfl, ?_, ?_⟩
  · simp only [update_player_viewport, Point.mk.injEq]
    unfold cpp_clamp
    constructor <;> split_ifs <;> omega
  · intro p hx
    simp only [update_player_viewport]
    unfold cpp_clamp
    split_ifs <;> omega

/-- Witness for the amended C7 at a concrete input: width = height = 100,
viewport 20x20. -/
theorem C7_viewport_clamping_witness :
    (update_player_viewport { x := 0, y := 0 } 100 100 20 20 = { x := 0, y := 0 }) ∧
    (update_player_viewport { x := 95, y := 50 } 100 100 20 20).x = 100 - 20 :=
  ⟨(C7_viewport_clamping 100 100 20 20 (by norm_num) (by norm_num) (by norm_num)
      (by norm_num)).2.1,
   (C7_viewport_clamping 100 100 20 20 (by norm_num) (by norm_num) (by norm_num)
      (by norm_num)).2.2 { x := 95, y := 50 } (by norm_num)⟩

/-- C1: evidence of in-place feedback within one smoothing pass of
`Engine::perform_cellular_automaton`.  On the concrete 5x5 grid
`caFeedbackGrid`, one in-place pass (as the code performs it) makes cell
`(2,2)` a wall because it reads neighbors already rewritten earlier in
the same pass, while the reference pass that reads every 3x3 wall-neighbor
count from an unmodified snapshot of the input grid leaves `(2,2)` a
floor; so the pass is not a pure function of the previous pass's grid. -/
theorem C1_inplace_pass_differs_from_snapshot :
    ca_pass 5 5 caFeedbackGrid 2 2 = 0 ∧
    snapshot_pass 5 5 caFeedbackGrid 2 2 = 1 ∧
    perform_cellular_automaton 5 5 caFeedbackGrid 1 2 2 ≠
      snapshot_pass 5 5 caFeedbackGrid 2 2 := by
  decide

end Roguely
